import Mathlib

/-!
Verification of the extraction/segmentation engine of the AMC problem
scraper (`scraper.py`).  The markup tree, the tree walker
(`extract_content_with_images`), the section segmenter and answer-choice
extractor (`extract_problem`), and the solution segmenter
(`extract_solutions`) are shallowly embedded as executable Lean
definitions.  Python regular expressions are embedded as hand-written
matchers over `List Char` that reproduce the exact backtracking
behaviour of the concrete patterns appearing in the source (note that
the source writes `\\s*` inside raw strings, which the regex engine
reads as a literal backslash followed by a greedy run of the letter
`s`, not as whitespace).  Strings are modelled as their character
lists; Python truthiness of strings is modelled as non-emptiness.
-/

namespace AMCScraper

/-- Whitespace characters recognised by Python's `str.strip` and the
regex class `\s` (ASCII fragment, which is all the wiki data uses). -/
def isPySpace (c : Char) : Bool :=
  c = ' ' || c = '\t' || c = '\n' || c = '\r' || c = '\x0b' || c = '\x0c'

/-- Python `str.strip()` on a character list. -/
def trimL (s : List Char) : List Char :=
  ((s.dropWhile isPySpace).reverse.dropWhile isPySpace).reverse

/-- ASCII lower-casing of one character, as `str.lower()` does on the
ASCII range. -/
def lowerChar (c : Char) : Char :=
  if 'A' ≤ c ∧ c ≤ 'Z' then Char.ofNat (c.toNat + 32) else c

/-- Python `str.lower()` on a character list (ASCII model). -/
def lowerL (s : List Char) : List Char := s.map lowerChar

/-- Does `s` start with the literal `pat`? (Python `str.startswith`.) -/
def startsWithL : List Char → List Char → Bool
  | [], _ => true
  | _ :: _, [] => false
  | p :: ps, c :: cs => p = c && startsWithL ps cs

/-- Python's `pat in s` substring test. -/
def containsSub (pat : List Char) : List Char → Bool
  | [] => startsWithL pat []
  | c :: t => startsWithL pat (c :: t) || containsSub pat t

/-- Consume the literal `pat` from the front of `s`, returning the rest. -/
def dropLit : List Char → List Char → Option (List Char)
  | [], s => some s
  | _ :: _, [] => none
  | p :: ps, c :: cs => if p = c then dropLit ps cs else none

/-- Length of the maximal run of characters satisfying `p` at the front. -/
def countLeading (p : Char → Bool) : List Char → Nat
  | [] => 0
  | c :: cs => if p c then countLeading p cs + 1 else 0

def isDigitChar (c : Char) : Bool := '0' ≤ c && c ≤ '9'

def isAlphaChar (c : Char) : Bool :=
  ('a' ≤ c && c ≤ 'z') || ('A' ≤ c && c ≤ 'Z')

/-- Value of a digit string, as Python `int` reads it. -/
def natOfDigits (ds : List Char) : Nat :=
  ds.foldl (fun a c => a * 10 + (c.toNat - '0'.toNat)) 0

/-!
Embedded matchers for the three textual answer-choice patterns of
`extract_problem` (source lines 245-249):

  pattern 1: `\$\\textbf\{\(([A-E])\)\}\\s*([^\$]+?)(?=\$|\\qquad|$)`
  pattern 2:   `\\textbf\{\(([A-E])\)\}\\s*([^\$]+?)(?=\$|\\qquad|$)`
  pattern 3:        `\(([A-E])\)\s*([^\$]+?)(?=\$|\\qquad|$)`

In patterns 1 and 2 the raw-string `\\s*` denotes a literal backslash
followed by a greedy run of the letter `s`; in pattern 3 the single
`\s*` is a greedy run of real whitespace.  The lazy group
`([^\$]+?)` grows one character at a time until the lookahead
(a dollar sign, the literal `\qquad`, or end of string) holds; the
greedy star backtracks from its maximal run downwards.
-/

/-- The lookahead `(?=\$|\\qquad|$)` of the textual patterns: holds at
end of string, at a dollar sign, or at the literal `\qquad`. -/
def lookDollar (s : List Char) : Bool :=
  match s with
  | [] => true
  | c :: _ => c = '$' || startsWithL "\\qquad".data s

/-- Core of a lazy one-or-more capture: `acc` holds the (reversed)
characters taken so far (at least one); extend one character at a time
until the lookahead `look` holds, refusing characters satisfying
`bad` (the complement of the capture's character class). -/
def lazyCapGo (bad : Char → Bool) (look : List Char → Bool) :
    List Char → List Char → Option (List Char × List Char)
  | acc, s =>
    if look s then some (acc.reverse, s)
    else
      match s with
      | [] => none
      | c :: rest => if bad c then none else lazyCapGo bad look (c :: acc) rest

/-- The group `([^\$]+?)` followed by the lookahead `(?=\$|\\qquad|$)`:
take the shortest non-empty run of non-dollar characters after which
the lookahead holds. -/
def lazyCapture (s : List Char) : Option (List Char × List Char) :=
  match s with
  | [] => none
  | c :: rest =>
    if c = '$' then none else lazyCapGo (fun ch => ch = '$') lookDollar [c] rest

/-- Backtracking for a greedy star: try dropping `j` class characters
first (`j` starts at the length of the maximal run), then fewer, until
the continuation `capF` succeeds. -/
def tryDrops (capF : List Char → Option (List Char × List Char)) :
    Nat → List Char → Option (List Char × List Char)
  | 0, s => capF s
  | j + 1, s =>
    match capF (s.drop (j + 1)) with
    | some r => some r
    | none => tryDrops capF j s

/-- A greedy star over the character class `cls` followed by the lazy
capture `capF`, with the backtracking order of Python's engine. -/
def starThenLazy (cls : Char → Bool) (capF : List Char → Option (List Char × List Char))
    (s : List Char) : Option (List Char × List Char) :=
  tryDrops capF (countLeading cls s) s

def letterAE (c : Char) : Bool := 'A' ≤ c && c ≤ 'E'

/-- Attempt pattern 1 at the start of `s`: literal `$\textbf{(`, a
letter A-E, literal `)}` and a backslash, the greedy `s*`, then the
lazy capture.  Returns the letter, the captured text, and the suffix
at which matching stopped (the lookahead consumes nothing). -/
def matchChoice1 (s : List Char) : Option (Char × List Char × List Char) := do
  let s1 ← dropLit "$\\textbf\x7b(".data s
  match s1 with
  | [] => none
  | c :: s2 =>
    if letterAE c then do
      let s3 ← dropLit ")\x7d\\".data s2
      let (cap, rest) ← starThenLazy (fun ch => ch = 's') lazyCapture s3
      pure (c, cap, rest)
    else none

/-- Attempt pattern 2 at the start of `s` (pattern 1 without the
leading dollar sign). -/
def matchChoice2 (s : List Char) : Option (Char × List Char × List Char) := do
  let s1 ← dropLit "\\textbf\x7b(".data s
  match s1 with
  | [] => none
  | c :: s2 =>
    if letterAE c then do
      let s3 ← dropLit ")\x7d\\".data s2
      let (cap, rest) ← starThenLazy (fun ch => ch = 's') lazyCapture s3
      pure (c, cap, rest)
    else none

/-- Attempt pattern 3 at the start of `s`: `(`, a letter A-E, `)`,
real whitespace `\s*`, then the lazy capture. -/
def matchChoice3 (s : List Char) : Option (Char × List Char × List Char) := do
  let s1 ← dropLit "(".data s
  match s1 with
  | [] => none
  | c :: s2 =>
    if letterAE c then do
      let s3 ← dropLit ")".data s2
      let (cap, rest) ← starThenLazy isPySpace lazyCapture s3
      pure (c, cap, rest)
    else none

/-- Python `re.findall`: scan left to right, trying `m` at every
position; on success record the groups and resume at the end of the
match, otherwise advance one character.  Every successful match here
consumes at least one character, so `fuel = length + 1` steps always
suffice; the fuel only discharges termination. -/
def scanAll (m : List Char → Option (Char × List Char × List Char)) :
    Nat → List Char → List (Char × List Char)
  | 0, _ => []
  | fuel + 1, s =>
    match m s with
    | some (c, cap, rest) => (c, cap) :: scanAll m fuel rest
    | none =>
      match s with
      | [] => []
      | _ :: t => scanAll m fuel t

/-!
Matchers for the image-alt fallback pattern of `extract_problem`
(source line 278): for each letter X the raw f-string builds
`\\textbf\{\(X\)\}\\s*([^\\]+?)(?=\\qquad|\\textbf|$)`, i.e. the
literal `\textbf{(X)}`, a literal backslash, a greedy run of `s`, and
a lazy capture of non-backslash characters up to `\qquad`, `\textbf`,
or end of string; it is applied with `re.search`.
-/

/-- The lookahead `(?=\\qquad|\\textbf|$)` of the alt pattern. -/
def lookAlt (s : List Char) : Bool :=
  match s with
  | [] => true
  | _ :: _ => startsWithL "\\qquad".data s || startsWithL "\\textbf".data s

/-- The group `([^\\]+?)` followed by the alt lookahead: shortest
non-empty run of non-backslash characters after which the lookahead
holds (a backslash not starting `\qquad`/`\textbf` kills the match). -/
def lazyCaptureAlt (s : List Char) : Option (List Char × List Char) :=
  match s with
  | [] => none
  | c :: rest =>
    if c = '\\' then none else lazyCapGo (fun ch => ch = '\\') lookAlt [c] rest

/-- Attempt the alt pattern for `letter` at the start of `s`,
returning only the captured group. -/
def matchAltAt (letter : Char) (s : List Char) : Option (List Char) := do
  let s1 ← dropLit "\\textbf\x7b(".data s
  let s2 ← dropLit [letter] s1
  let s3 ← dropLit ")\x7d\\".data s2
  let (cap, _) ← starThenLazy (fun ch => ch = 's') lazyCaptureAlt s3
  pure cap

/-- Python `re.search` for the alt pattern: first position (left to
right) at which the pattern matches. -/
def searchAlt (letter : Char) : List Char → Option (List Char)
  | [] => none
  | s@(_ :: t) =>
    match matchAltAt letter s with
    | some cap => some cap
    | none => searchAlt letter t

/-!  Cleaning steps applied to the matched texts.  -/

/-- Cleaning of a textual-cascade capture (source line 257):
`re.sub(r'\$+', '', text).strip()` removes every dollar sign and
strips surrounding whitespace. -/
def cleanTextCap (cap : List Char) : List Char :=
  trimL (cap.filter (fun c => c ≠ '$'))

/-- Drop a single leading `c` if present. -/
def dropOpt (c : Char) (s : List Char) : List Char :=
  match s with
  | [] => []
  | x :: rest => if x = c then rest else s

/-- Global substitution `re.sub(r'\\[a-zA-Z]+\{?\}?', '', text)`
(source line 283): delete each backslash command — a backslash, a
non-empty greedy run of letters, then an optional `{` and an optional
`}`.  Each step consumes at least one character, so fuel equal to the
length suffices. -/
def stripTeXCmds : Nat → List Char → List Char
  | 0, s => s
  | _ + 1, [] => []
  | fuel + 1, c :: rest =>
    if c = '\\' then
      if rest.takeWhile isAlphaChar = [] then c :: stripTeXCmds fuel rest
      else
        stripTeXCmds fuel (dropOpt '\x7d' (dropOpt '\x7b' (rest.dropWhile isAlphaChar)))
    else c :: stripTeXCmds fuel rest

/-- Substitution `re.sub(r'\s+', ' ', text)` (source line 284): each
maximal whitespace run becomes a single space. -/
def collapseWs : List Char → List Char
  | [] => []
  | c :: rest =>
    if isPySpace c then
      match collapseWs rest with
      | ' ' :: t => ' ' :: t
      | t => ' ' :: t
    else c :: collapseWs rest

/-- Substitution `re.sub(r'\$+\s*$', '', text)` (source line 286):
remove a final run of dollar signs together with the trailing
whitespace that follows it. -/
def stripTrailingDollars (s : List Char) : List Char :=
  let r := s.reverse.dropWhile isPySpace
  match r with
  | '$' :: _ => (r.dropWhile (fun c => c = '$')).reverse
  | _ => s

/-- Full cleaning of an alt capture (source lines 283-286), each
substitution followed by `.strip()`. -/
def cleanAlt (cap : List Char) : List Char :=
  let t1 := trimL (stripTeXCmds cap.length cap)
  let t2 := trimL (collapseWs t1)
  trimL (stripTrailingDollars t2)

/-!  Data model: the dictionaries built by the scraper.  -/

/-- One answer choice as appended to `problem_data["answer_choices"]`.
The textual cascade (source lines 259-262) stores only `letter` and
`text`, so `source` is `none` there; the image-alt fallback (source
lines 288-292) additionally stores `"image_alt"`. -/
structure AnswerChoice where
  letter : Char
  text : String
  source : Option String
deriving Repr, DecidableEq

/-- One content item as built by `extract_content_with_images`:
`{"type":"text"}`, `{"type":"image"}`, `{"type":"line_break"}` or the
`{"type":"html"}` raw fragment. -/
inductive ContentItem where
  | text (content : String)
  | image (src : String) (localPath : String) (alt : String)
      (width : Option String) (height : Option String)
  | lineBreak
  | html (content : String) (htmlStr : String) (tag : String)
deriving Repr, DecidableEq

/-- One solution record as built by `extract_solutions`. -/
structure SolutionRecord where
  number : Nat
  content : List ContentItem
deriving Repr, DecidableEq

/-- The record returned by `extract_problem`. -/
structure ProblemData where
  number : Nat
  content : List ContentItem
  answer_choices : List AnswerChoice
deriving Repr, DecidableEq

/-!  The answer-choice extractor (source lines 233-295).  -/

/-- The text contribution of one item: `text` and `html` items
contribute their `content` field (source lines 236-240). -/
def itemTextPart : ContentItem → Option String
  | .text c => some c
  | .html c _ _ => some c
  | _ => none

/-- The search string: every text/html content joined with single
spaces (source line 242). -/
def problemText (content : List ContentItem) : String :=
  String.intercalate " " (content.filterMap itemTextPart)

/-- Turn the matches of the winning pattern into choices, dropping
those whose cleaned text is empty (source lines 255-262). -/
def choicesOfMatches (ms : List (Char × List Char)) : List AnswerChoice :=
  ms.filterMap fun m =>
    let t := cleanTextCap m.2
    if t = [] then none else some ⟨m.1, ⟨t⟩, none⟩

/-- The textual pattern cascade (source lines 245-264): the first
pattern with at least one match wins; the boolean is Python's
`found_choices` flag. -/
def textualChoices (s : String) : Bool × List AnswerChoice :=
  let l := s.data
  let m1 := scanAll matchChoice1 (l.length + 1) l
  if m1 ≠ [] then (true, choicesOfMatches m1)
  else
    let m2 := scanAll matchChoice2 (l.length + 1) l
    if m2 ≠ [] then (true, choicesOfMatches m2)
    else
      let m3 := scanAll matchChoice3 (l.length + 1) l
      if m3 ≠ [] then (true, choicesOfMatches m3)
      else (false, [])

/-- Per-letter extraction from an alt text (source lines 276-292). -/
def choiceForLetter (letter : Char) (alt : List Char) : Option AnswerChoice :=
  match searchAlt letter alt with
  | none => none
  | some cap =>
    let t := cleanAlt cap
    if t = [] then none else some ⟨letter, ⟨t⟩, some "image_alt"⟩

/-- All choices one alt text yields, letters tried in order A-E. -/
def choicesFromAlt (alt : List Char) : List AnswerChoice :=
  ['A', 'B', 'C', 'D', 'E'].filterMap fun l => choiceForLetter l alt

/-- The gate of the fallback (source line 272): the alt text must
contain `\textbf{(A)}` or `textbf{(A)}` literally. -/
def altGate (alt : String) : Bool :=
  containsSub "\\textbf\x7b(A)\x7d".data alt.data ||
    containsSub "textbf\x7b(A)\x7d".data alt.data

/-- The image-alt fallback (source lines 267-295): scan the content
items in order; an image with a non-empty alt passing the gate
contributes its per-letter choices, and the scan stops at the first
image contributing at least one choice. -/
def imageAltFallback : List ContentItem → List AnswerChoice
  | [] => []
  | .image _ _ alt _ _ :: rest =>
    if alt ≠ "" ∧ altGate alt = true then
      if choicesFromAlt alt.data = [] then imageAltFallback rest
      else choicesFromAlt alt.data
    else imageAltFallback rest
  | _ :: rest => imageAltFallback rest

/-- The alt text of the first image whose non-empty alt passes the
gate (an observer used to state properties of the fallback scan). -/
def firstMarkerAlt : List ContentItem → Option String
  | [] => none
  | .image _ _ alt _ _ :: rest =>
    if alt ≠ "" ∧ altGate alt = true then some alt else firstMarkerAlt rest
  | _ :: rest => firstMarkerAlt rest

/-- The whole answer-choice extractor: the textual cascade if any
pattern matched (Python's `found_choices`), otherwise the image-alt
fallback (lines 251-295). -/
def answerChoicesOf (content : List ContentItem) : List AnswerChoice :=
  if (textualChoices (problemText content)).1 then (textualChoices (problemText content)).2
  else imageAltFallback content

/-!
The markup tree.  A parsed page is modelled as the ordered list of
sibling nodes of the main content container; each node is a string
(BeautifulSoup `NavigableString`) or a tag with a name, attributes and
ordered children.  The attributes are those the scraper reads.
BeautifulSoup's `find`/`find_all` scan the subtree in document order
(preorder) and — like `find_next_sibling()` with no filter — match
tags only, never strings; anchor ids are assumed unique in a page (a
wiki invariant), and section headings are siblings of the content they
head (i.e. a `Problem`/`Solution_i` anchor span is a top-level sibling
or a direct child of one), which fixes the scraper's
`parent`/`find_next_sibling` steps to the sibling list.
-/

/-- Attributes read by the scraper. -/
structure Attrs where
  id : Option String := none
  src : Option String := none
  dataSrc : Option String := none
  alt : Option String := none
  width : Option String := none
  height : Option String := none

/-- A markup node: a bare string or a tag with children. -/
inductive Node where
  | textNode (s : String)
  | elem (name : String) (attrs : Attrs) (children : List Node)

mutual

/-- All nodes of the subtree rooted at `n`, in document (preorder)
order. -/
def nodeAll : Node → List Node
  | .textNode s => [.textNode s]
  | .elem n a cs => .elem n a cs :: forestAll cs

/-- All nodes of a sibling forest, in document order. -/
def forestAll : List Node → List Node
  | [] => []
  | c :: cs => nodeAll c ++ forestAll cs

end

/-- The string carried by a text node. -/
def textOf : Node → Option String
  | .textNode s => some s
  | _ => none

/-- BeautifulSoup `get_text()`: concatenation of all strings of the
subtree in document order. -/
def getText (n : Node) : String :=
  String.join ((nodeAll n).filterMap textOf)

/-- BeautifulSoup `get_text(strip=True)`: concatenation of the
stripped strings. -/
def getTextStrip (n : Node) : String :=
  String.join (((nodeAll n).filterMap textOf).map fun s => ⟨trimL s.data⟩)

/-- Render one attribute for serialization. -/
def renderAttr (k : String) : Option String → String
  | none => ""
  | some v => " " ++ k ++ "=\"" ++ v ++ "\""

def attrsStr (a : Attrs) : String :=
  renderAttr "id" a.id ++ renderAttr "src" a.src ++ renderAttr "data-src" a.dataSrc ++
    renderAttr "alt" a.alt ++ renderAttr "width" a.width ++ renderAttr "height" a.height

mutual

/-- Python `str(child)`: the serialized markup of the subtree (model
of BeautifulSoup's renderer; the exact text is not load-bearing). -/
def serializeNode : Node → String
  | .textNode s => s
  | .elem name a cs =>
    "<" ++ name ++ attrsStr a ++ ">" ++ serializeForest cs ++ "</" ++ name ++ ">"

def serializeForest : List Node → String
  | [] => ""
  | c :: cs => serializeNode c ++ serializeForest cs

end

/-- Is this node an `img` tag? -/
def isImgTag : Node → Bool
  | .elem "img" _ _ => true
  | _ => false

/-- BeautifulSoup `child.find('img')`: first `img` descendant in
document order. -/
def findImg (cs : List Node) : Option Node :=
  (forestAll cs).find? isImgTag

/-!  The tree walker `extract_content_with_images` (lines 111-181).  -/

/-- Source lines 134-145: `child.get('src') or child.get('data-src')`
with Python truthiness, then the resolver (`download_image`), yielding
one image item or nothing.  The resolver models `download_image`,
which returns a local path or `None`. -/
def imageItem (resolve : String → Option String) (a : Attrs) : List ContentItem :=
  let src? :=
    match a.src with
    | some s => if s = "" then a.dataSrc else some s
    | none => a.dataSrc
  match src? with
  | none => []
  | some src =>
    if src = "" then []
    else
      match resolve src with
      | none => []
      | some lp => [.image src lp (a.alt.getD "") a.width a.height]

/-- The structural container tags of source line 161. -/
def containerTags : List String := ["p", "div", "span", "br", "pre", "code"]

mutual

/-- The per-child branch cascade of the walker (source lines
127-179), in the source's order: strings, `img`, image-wrapping `a`,
the container list (which includes `br`, making the later dedicated
`br` branch unreachable), the dead `br` branch, then the raw-html
fallback guarded by non-empty visible text. -/
def childItems (resolve : String → Option String) : Node → List ContentItem
  | .textNode s =>
    if trimL s.data = [] then [] else [.text ⟨trimL s.data⟩]
  | .elem name a cs =>
    if name = "img" then imageItem resolve a
    else if name = "a" ∧ (findImg cs).isSome then
      match findImg cs with
      | some (.elem _ ia _) => imageItem resolve ia
      | _ => []
    else if name ∈ containerTags then walkChildren resolve cs
    else if name = "br" then [.lineBreak]
    else
      let t := getTextStrip (.elem name a cs)
      if t = "" then [] else [.html t (serializeNode (.elem name a cs)) name]

/-- The walker's loop over `element.children` (source line 126),
splicing each child's items in order. -/
def walkChildren (resolve : String → Option String) : List Node → List ContentItem
  | [] => []
  | c :: rest => childItems resolve c ++ walkChildren resolve rest

end

/-- `extract_content_with_images` on one node: a bare string yields
its stripped text (lines 119-123), a tag yields its children's items
(line 126). -/
def extract_content_with_images (resolve : String → Option String) : Node → List ContentItem
  | .textNode s => if trimL s.data = [] then [] else [.text ⟨trimL s.data⟩]
  | .elem _ _ cs => walkChildren resolve cs

/-!  The section segmenter of `extract_problem` (lines 183-231).  -/

/-- A `span` tag with the given id. -/
def spanWithId (sid : String) : Node → Bool
  | .elem "span" a _ => a.id = some sid
  | _ => false

/-- `soup.find('span', {'id': 'Problem'})` (source line 192). -/
def anchorPrimary (n : Node) : Bool := spanWithId "Problem" n

/-- The heading fallback (source lines 195-199): an `h2`, `h3` or
`span` whose stripped, lower-cased text equals `problem`, or a `span`
with id `Problem`. -/
def anchorFallback (n : Node) : Bool :=
  match n with
  | .elem name a _ =>
    (name = "h2" || name = "h3" || name = "span") &&
      (lowerL (trimL (getText n).data) = "problem".data ||
        (name = "span" && a.id = some "Problem"))
  | _ => false

/-- Does the page have a locatable Problem anchor at all? -/
def hasProblemAnchor (page : List Node) : Bool :=
  (forestAll page).any anchorPrimary || (forestAll page).any anchorFallback

/-- The siblings strictly after the first one satisfying `p` (empty
when none does). -/
def afterFirst (p : Node → Bool) : List Node → List Node
  | [] => []
  | n :: rest => if p n then rest else afterFirst p rest

/-- The sibling sequence the problem-region loop starts from (source
lines 204-209): everything after the top-level sibling containing (or
equal to) the located anchor. -/
def siblingsAfterAnchor (page : List Node) : List Node :=
  if (forestAll page).any anchorPrimary then
    afterFirst (fun n => (nodeAll n).any anchorPrimary) page
  else
    afterFirst (fun n => (nodeAll n).any anchorFallback) page

/-- The loop's break conditions (source lines 214-222): an `h2`/`h3`
whose lower-cased text contains `solution`, `see also` or
`video solution`, or a `span` whose id starts with `Solution`. -/
def isBoundary : Node → Bool
  | .textNode _ => false
  | .elem name a cs =>
    ((name = "h2" || name = "h3") &&
      (let t := lowerL (trimL (getText (.elem name a cs)).data)
       containsSub "solution".data t || containsSub "see also".data t ||
         containsSub "video solution".data t)) ||
    (name = "span" &&
      match a.id with
      | some i => startsWithL "Solution".data i.data
      | none => false)

/-- The sibling collection loop (source lines 213-225):
`find_next_sibling()` visits tags only, and collection stops at the
first boundary tag. -/
def collectRegion : List Node → List Node
  | [] => []
  | .textNode _ :: rest => collectRegion rest
  | .elem name a cs :: rest =>
    if isBoundary (.elem name a cs) then []
    else .elem name a cs :: collectRegion rest

/-- `extract_problem` (lines 183-297): segment the problem region,
walk it into content items, then run the answer-choice cascade; a page
with no locatable anchor yields empty content and no choices. -/
def extract_problem (resolve : String → Option String) (page : List Node)
    (problemNum : Nat) : ProblemData :=
  if hasProblemAnchor page then
    let content :=
      (collectRegion (siblingsAfterAnchor page)).flatMap
        (extract_content_with_images resolve)
    ⟨problemNum, content, answerChoicesOf content⟩
  else ⟨problemNum, [], []⟩

/-!  The solution segmenter `extract_solutions` (lines 299-370).  -/

/-- `soup.find('span', {'id': sid})` over the page. -/
def findSpan (page : List Node) (sid : String) : Option Node :=
  (forestAll page).find? (spanWithId sid)

/-- A `span` with any id (`current.find('span', id=True)`). -/
def isSpanAnyId : Node → Bool
  | .elem "span" a _ => a.id.isSome
  | _ => false

/-- The id carried by a node, when it is a span. -/
def idOf : Node → Option String
  | .elem "span" a _ => a.id
  | _ => none

/-- Python `re.search(r'Solution_(\d+)', s)`: value of the digit run
after the first occurrence of `Solution_` that is followed by at
least one digit. -/
def searchKeyNum (key : List Char) : List Char → Option Nat
  | [] => none
  | s@(_ :: t) =>
    match dropLit key s with
    | some r =>
      let ds := r.takeWhile isDigitChar
      if ds = [] then searchKeyNum key t else some (natOfDigits ds)
    | none => searchKeyNum key t

/-- Python `re.search(r'solution\s+(\d+)', text, re.IGNORECASE)` on an
already lower-cased text: the word `solution`, at least one
whitespace character, then a digit run. -/
def searchSolTextNum : List Char → Option Nat
  | [] => none
  | s@(_ :: t) =>
    match dropLit "solution".data s with
    | some r =>
      if r.takeWhile isPySpace = [] then searchSolTextNum t
      else
        let ds := (r.dropWhile isPySpace).takeWhile isDigitChar
        if ds = [] then searchSolTextNum t else some (natOfDigits ds)
    | none => searchSolTextNum t

/-- The inner loop's break conditions (source lines 334-360): only an
`h2` can end a solution region — by a descendant span whose id names
the next solution (`Solution_(i+1)`) or starts a video/see-also
section, or, with no id-bearing span, by its heading text. -/
def isNextSolBoundary (maxSolutions i : Nat) : Node → Bool
  | .textNode _ => false
  | .elem name a cs =>
    if name = "h2" then
      match (forestAll cs).find? isSpanAnyId with
      | some sp =>
        let sid := (idOf sp).getD ""
        if startsWithL "Solution_".data sid.data then
          match searchKeyNum "Solution_".data sid.data with
          | some k => decide (k = i + 1)
          | none => false
        else
          startsWithL "Video".data sid.data || startsWithL "See_Also".data sid.data
      | none =>
        let t := lowerL (trimL (getText (.elem name a cs)).data)
        if startsWithL "solution".data t && decide (i < maxSolutions) then
          match searchSolTextNum t with
          | some k => decide (k = i + 1)
          | none => false
        else
          startsWithL "video".data t || startsWithL "see also".data t
    else false

/-- The content collection of one solution (source lines 333-365):
tags after the heading, stopping at the first boundary. -/
def solContent (resolve : String → Option String) (maxSolutions i : Nat) :
    List Node → List ContentItem
  | [] => []
  | .textNode _ :: rest => solContent resolve maxSolutions i rest
  | .elem name a cs :: rest =>
    if isNextSolBoundary maxSolutions i (.elem name a cs) then []
    else
      extract_content_with_images resolve (.elem name a cs) ++
        solContent resolve maxSolutions i rest

/-- The heading of solution `i` (source lines 313-321): the `h2`
sibling having the `Solution_i` span as a direct child, else the
`h2`/`h3` sibling whose stripped text is exactly `Solution i` or
`Solution i:`.  Returns the siblings after the heading. -/
def findHeadingRest (page : List Node) (i : Nat) : Option (List Node) :=
  let sid := "Solution_" ++ toString i
  let primary : Node → Bool := fun n =>
    match n with
    | .elem "h2" _ cs => cs.any (spanWithId sid)
    | _ => false
  let fallback : Node → Bool := fun n =>
    match n with
    | .elem name _ _ =>
      (name = "h2" || name = "h3") &&
        (decide ((⟨trimL (getText n).data⟩ : String) = "Solution " ++ toString i) ||
          decide ((⟨trimL (getText n).data⟩ : String) = "Solution " ++ toString i ++ ":"))
    | _ => false
  if page.any primary then some (afterFirst primary page)
  else if page.any fallback then some (afterFirst fallback page)
  else none

/-- The solution index loop (source lines 304-368): process indices
`i, i+1, ...` with `fuel` iterations left; a missing `Solution_i`
anchor or heading stops the whole scan, and a solution with empty
content is dropped. -/
def solLoop (resolve : String → Option String) (page : List Node)
    (maxSolutions : Nat) : Nat → Nat → List SolutionRecord
  | _, 0 => []
  | i, fuel + 1 =>
    match findSpan page ("Solution_" ++ toString i) with
    | none => []
    | some _ =>
      match findHeadingRest page i with
      | none => []
      | some after =>
        let c := solContent resolve maxSolutions i after
        if c = [] then solLoop resolve page maxSolutions (i + 1) fuel
        else ⟨i, c⟩ :: solLoop resolve page maxSolutions (i + 1) fuel

/-- `extract_solutions` (lines 299-370) with its index range
`1..max_solutions`. -/
def extract_solutions (resolve : String → Option String) (page : List Node)
    (maxSolutions : Nat) : List SolutionRecord :=
  solLoop resolve page maxSolutions 1 maxSolutions

/-!  Concrete inputs used by the theorems below.  -/

/-- The spec's answer-choice test input, a single text item's content:
`The answer is $\textbf{(A)}\ 5 \qquad \textbf{(B)}\ 10$`. -/
def c1Text : String :=
  "The answer is $\\textbf\x7b(A)\x7d\\ 5 \\qquad \\textbf\x7b(B)\x7d\\ 10$"

/-- A problem text with two `(A)` choice blocks:
`$\textbf{(A)}\ 5$ and $\textbf{(A)}\ 6$`. -/
def dupText : String :=
  "$\\textbf\x7b(A)\x7d\\ 5$ and $\\textbf\x7b(A)\x7d\\ 6$"

/-- A single-choice problem text: `$\textbf{(C)}\ 7$`. -/
def c6Text : String := "$\\textbf\x7b(C)\x7d\\ 7$"

/-- The spec's image-alt test input:
`\textbf{(A)}\ 3\qquad\textbf{(B)}\ 4`. -/
def altAB : String := "\\textbf\x7b(A)\x7d\\ 3\\qquad\\textbf\x7b(B)\x7d\\ 4"

/-- A Problem heading: an `h2` whose anchor span has id `Problem`. -/
def problemHeadingNode : Node :=
  .elem "h2" {} [.elem "span" { id := some "Problem" } [.textNode "Problem"]]

/-- A page whose problem statement repeats the `(A)` block. -/
def dupPage : List Node :=
  [problemHeadingNode, .elem "p" {} [.textNode dupText]]

/-- A resolver that always fails (no image is downloadable). -/
def noResolve : String → Option String := fun _ => none

/-!
Claim theorems.
-/

/-- Claim C1, counterexample: on the spec's input the extractor does
not return the two choices A/5 and B/10 — pattern 1 wins with a single
match, because it requires a literal dollar sign immediately before
each `\textbf` block and the `(B)` block has none. -/
theorem c1_counterexample :
    (answerChoicesOf [ContentItem.text c1Text]).map (fun c => (c.letter, c.text)) ≠
      [('A', "5"), ('B', "10")] := by
  decide

/-- Claim C1, amended: on the spec's input the first pattern of the
cascade yields exactly one match, so the extractor returns the single
choice A/5 (later patterns, which would also find B/10, are never
tried). -/
theorem c1_amended_single_choice :
    answerChoicesOf [ContentItem.text c1Text] =
      [{ letter := 'A', text := "5", source := none }] := by
  decide

/-- Claim C2: a `br` element is caught by the structural-container
branch (its tag is in the container list), so the tree walker recurses
into it — and, since `br` is void, emits nothing; the dedicated
line-break branch of the source is unreachable and no `LineBreak` item
is ever produced for a `br`. -/
theorem c2_br_recurses_and_yields_nothing :
    ∀ (resolve : String → Option String) (a : Attrs) (cs : List Node),
      childItems resolve (.elem "br" a cs) = walkChildren resolve cs ∧
      childItems resolve (.elem "br" a []) = [] := by
  intro resolve a cs
  refine ⟨?_, ?_⟩ <;> simp [childItems, containerTags, walkChildren]

/-- Claim C5, counterexample: a page whose problem text contains two
`(A)` blocks produces two answer choices with the same letter — the
textual cascade copies every match of the winning pattern and never
deduplicates letters. -/
theorem c5_counterexample :
    (extract_problem noResolve dupPage 1).answer_choices.map AnswerChoice.letter =
        ['A', 'A'] ∧
      ¬ ((extract_problem noResolve dupPage 1).answer_choices.map
          AnswerChoice.letter).Pairwise (· ≠ ·) := by
  constructor
  · decide
  · decide

/-- Claim C6, counterexample: a choice produced by the textual cascade
carries no source field at all (modelled as `none`), not the value
`"text"`. -/
theorem c6_counterexample :
    answerChoicesOf [ContentItem.text c6Text] =
        [{ letter := 'C', text := "7", source := none }] ∧
      (none : Option String) ≠ some "text" := by
  exact ⟨by decide, by decide⟩

/-- A table whose only content is an image: its visible text is empty. -/
def tableOnlyImg : Node :=
  .elem "table" {} [.elem "img" { src := some "diag.png", alt := some "diagram" } []]

/-- A resolver that always succeeds. -/
def okResolve : String → Option String := fun _ => some "images/local.png"

/-- Claim C3, counterexample: an unrecognized node whose visible text
is empty (a table containing only an image) yields zero items, not
one `RawFragment` — the fallback is guarded by `if text:`, so such
content is silently dropped even when the image resolver succeeds. -/
theorem c3_counterexample :
    childItems okResolve tableOnlyImg = [] ∧
      (childItems okResolve tableOnlyImg).length ≠ 1 := by
  exact ⟨by decide, by decide⟩

/-- Claim C3, amended: an unrecognized node yields exactly one
raw-fragment item when its visible text is non-empty, and nothing at
all when its visible text is empty. -/
theorem c3_amended_raw_fragment :
    ∀ (resolve : String → Option String) (name : String) (a : Attrs) (cs : List Node),
      name ≠ "img" →
      ¬(name = "a" ∧ (findImg cs).isSome) →
      name ∉ containerTags →
      childItems resolve (.elem name a cs) =
        (if getTextStrip (.elem name a cs) = "" then []
         else [.html (getTextStrip (.elem name a cs))
                (serializeNode (.elem name a cs)) name]) := by
  intro resolve name a cs h1 h2 h3
  have h4 : name ≠ "br" := fun e => h3 (by rw [e]; simp [containerTags])
  simp only [childItems]
  rw [if_neg h1, if_neg h2, if_neg h3, if_neg h4]

/-- Witness for the amended C3 at the concrete table node. -/
theorem c3_amended_raw_fragment_witness :
    childItems okResolve tableOnlyImg =
      (if getTextStrip tableOnlyImg = "" then []
       else [.html (getTextStrip tableOnlyImg) (serializeNode tableOnlyImg) "table"]) :=
  c3_amended_raw_fragment okResolve "table" _ _
    (by decide) (by simp [findImg, forestAll, nodeAll, isImgTag]) (by decide)

/-- Claim C7: a page in which no node is a `Problem`-id span and no
`h2`/`h3`/`span` has (stripped, lower-cased) text `problem` yields a
record with empty content and no answer choices; the embedding is
total, so no exception is possible. -/
theorem c7_no_anchor_yields_empty :
    ∀ (resolve : String → Option String) (page : List Node) (num : Nat),
      (∀ n ∈ forestAll page, anchorPrimary n = false ∧ anchorFallback n = false) →
      extract_problem resolve page num = ⟨num, [], []⟩ := by
  intro resolve page num h
  have hp : (forestAll page).any anchorPrimary = false := by
    rw [List.any_eq_false]
    intro x hx
    simp [(h x hx).1]
  have hf : (forestAll page).any anchorFallback = false := by
    rw [List.any_eq_false]
    intro x hx
    simp [(h x hx).2]
  have hcond : hasProblemAnchor page = false := by
    simp [hasProblemAnchor, hp, hf]
  simp [extract_problem, hcond]

/-- A one-paragraph page with no Problem anchor anywhere. -/
def noAnchorPage : List Node := [.elem "p" {} [.textNode "hello"]]

/-- Witness for C7 at a concrete anchor-free page. -/
theorem c7_no_anchor_yields_empty_witness :
    extract_problem noResolve noAnchorPage 4 = ⟨4, [], []⟩ :=
  c7_no_anchor_yields_empty noResolve noAnchorPage 4 (by decide)

/-- The collection loop visits each sibling at most once. -/
theorem collectRegion_length_le : ∀ l : List Node, (collectRegion l).length ≤ l.length := by
  intro l
  induction l with
  | nil => simp [collectRegion]
  | cons n rest ih =>
    cases n with
    | textNode s => simpa [collectRegion] using Nat.le_succ_of_le ih
    | elem name a cs =>
      rw [collectRegion]
      split
      · simp
      · simpa using ih

/-- Everything the collection loop keeps comes before the first
boundary sibling. -/
theorem collectRegion_before_boundary :
    ∀ (pre post : List Node) (b : Node),
      isBoundary b = true → (∀ x ∈ pre, isBoundary x = false) →
      ∀ n ∈ collectRegion (pre ++ b :: post), n ∈ pre := by
  intro pre
  induction pre with
  | nil =>
    intro post b hb _ n hn
    cases b with
    | textNode s => simp [isBoundary] at hb
    | elem name a cs => rw [List.nil_append, collectRegion, if_pos hb] at hn; cases hn
  | cons x xs ih =>
    intro post b hb hpre n hn
    cases x with
    | textNode s =>
      rw [List.cons_append, collectRegion] at hn
      exact List.mem_cons_of_mem _ (ih post b hb (fun y hy => hpre y (List.mem_cons_of_mem _ hy)) n hn)
    | elem name a cs =>
      rw [List.cons_append, collectRegion,
        if_neg (by simp [hpre (.elem name a cs) (List.mem_cons_self _ _)])] at hn
      rcases List.mem_cons.1 hn with hn' | hn'
      · exact hn' ▸ List.mem_cons_self _ _
      · exact List.mem_cons_of_mem _
          (ih post b hb (fun y hy => hpre y (List.mem_cons_of_mem _ hy)) n hn')

/-- Claim C9: with a detectable Problem anchor the sibling traversal
is a single finite pass (the region is no longer than the sibling
list), and the returned problem region contains nothing at or after
the first boundary sibling (the first solution/see-also/video heading
or `Solution*` anchor). -/
theorem c9_region_terminates_and_excludes_boundary :
    ∀ (page pre post : List Node) (b : Node),
      hasProblemAnchor page = true →
      siblingsAfterAnchor page = pre ++ b :: post →
      isBoundary b = true →
      (∀ x ∈ pre, isBoundary x = false) →
      (collectRegion (siblingsAfterAnchor page)).length ≤
          (siblingsAfterAnchor page).length ∧
        ∀ n ∈ collectRegion (siblingsAfterAnchor page), n ∈ pre := by
  intro page pre post b _ hsplit hb hpre
  refine ⟨collectRegion_length_le _, ?_⟩
  rw [hsplit]
  exact collectRegion_before_boundary pre post b hb hpre

/-- A Problem statement paragraph. -/
def c9Body : Node := .elem "p" {} [.textNode "Find x."]

/-- A Solution 1 heading (boundary sibling). -/
def c9SolHeading : Node :=
  .elem "h2" {} [.elem "span" { id := some "Solution_1" } [.textNode "Solution 1"]]

/-- A paragraph after the boundary. -/
def c9After : Node := .elem "p" {} [.textNode "Sol text."]

/-- A small well-formed problem page. -/
def c9Page : List Node := [problemHeadingNode, c9Body, c9SolHeading, c9After]

/-- Witness for C9 at a concrete page. -/
theorem c9_region_witness :
    (collectRegion (siblingsAfterAnchor c9Page)).length ≤
        (siblingsAfterAnchor c9Page).length ∧
      ∀ n ∈ collectRegion (siblingsAfterAnchor c9Page), n ∈ [c9Body] :=
  c9_region_terminates_and_excludes_boundary c9Page [c9Body] [c9After] c9SolHeading
    (by decide) (by rfl) (by decide) (by decide)

/-- A start of a string is in particular a substring occurrence. -/
theorem containsSub_of_startsWith :
    ∀ (p s : List Char), startsWithL p s = true → containsSub p s = true := by
  intro p s h
  cases s with
  | nil => exact h
  | cons a t => rw [containsSub, h, Bool.true_or]

/-- Containment of a pattern implies containment of its tail pattern
(the occurrence shifted by one). -/
theorem containsSub_tail :
    ∀ (c : Char) (p s : List Char), containsSub (c :: p) s = true → containsSub p s = true := by
  intro c p s
  induction s with
  | nil => intro h; simp [containsSub, startsWithL] at h
  | cons a t ih =>
    intro h
    rw [containsSub] at h
    rcases Bool.or_eq_true_iff.1 h with h1 | h2
    · rw [startsWithL, Bool.and_eq_true] at h1
      rw [containsSub, containsSub_of_startsWith p t h1.2, Bool.or_true]
    · rw [containsSub, ih h2, Bool.or_true]

/-- Claim C10: an image whose alt text has no `(A)` marker — here one
carrying only a `(B)` marker — fails the fallback's gate and is passed
over by the scan, contributing no choices. -/
theorem c10_no_A_marker_image_skipped :
    ∀ (src lp alt : String) (w h : Option String) (rest : List ContentItem),
      containsSub "textbf\x7b(A)\x7d".data alt.data = false →
      containsSub "\\textbf\x7b(B)\x7d".data alt.data = true →
      imageAltFallback (.image src lp alt w h :: rest) = imageAltFallback rest := by
  intro src lp alt w h rest hA _
  have hlong : containsSub "\\textbf\x7b(A)\x7d".data alt.data = false := by
    cases hc : containsSub "\\textbf\x7b(A)\x7d".data alt.data with
    | false => rfl
    | true =>
      have := containsSub_tail '\\' "textbf\x7b(A)\x7d".data alt.data hc
      rw [hA] at this
      cases this
  have hgate : altGate alt = false := by
    rw [altGate, hlong, hA]
    rfl
  rw [imageAltFallback, if_neg]
  intro hcond
  rw [hgate] at hcond
  cases hcond.2

/-- An image item whose alt contains only a `(B)` marker. -/
def imgOnlyB : ContentItem :=
  .image "b.png" "images/b.png" "\\textbf\x7b(B)\x7d\\ 4" none none

/-- Witness for C10 at a concrete image item. -/
theorem c10_no_A_marker_image_skipped_witness :
    imageAltFallback [imgOnlyB] = imageAltFallback [] :=
  c10_no_A_marker_image_skipped "b.png" "images/b.png" "\\textbf\x7b(B)\x7d\\ 4" none none []
    (by decide) (by decide)

/-- If the first gate-passing image's alt yields at least one choice,
the fallback returns exactly that image's choices. -/
theorem imageAltFallback_of_firstMarker :
    ∀ (cs : List ContentItem) (alt : String),
      firstMarkerAlt cs = some alt → choicesFromAlt alt.data ≠ [] →
      imageAltFallback cs = choicesFromAlt alt.data := by
  intro cs
  induction cs with
  | nil => intro alt h; simp [firstMarkerAlt] at h
  | cons item rest ih =>
    intro alt h hne
    cases item with
    | image src lp a w ht =>
      rw [firstMarkerAlt] at h
      rw [imageAltFallback]
      by_cases hc : a ≠ "" ∧ altGate a = true
      · rw [if_pos hc] at h ⊢
        injection h with h'
        subst h'
        rw [if_neg hne]
      · rw [if_neg hc] at h ⊢
        exact ih alt h hne
    | text c => exact ih alt h hne
    | lineBreak => exact ih alt h hne
    | html c hs t => exact ih alt h hne

/-- Claim C8: when the textual cascade found nothing and the first
gate-passing image carries the alt text
`\textbf{(A)}\ 3\qquad\textbf{(B)}\ 4`, the extractor returns the two
choices A/3 and B/4, both with source `image_alt`. -/
theorem c8_image_alt_fallback_choices :
    ∀ cs : List ContentItem,
      (textualChoices (problemText cs)).1 = false →
      firstMarkerAlt cs = some altAB →
      answerChoicesOf cs =
        [{ letter := 'A', text := "3", source := some "image_alt" },
         { letter := 'B', text := "4", source := some "image_alt" }] := by
  intro cs h1 h2
  rw [answerChoicesOf, h1]
  simp only [Bool.false_eq_true, if_false]
  rw [imageAltFallback_of_firstMarker cs altAB h2 (by decide)]
  decide

/-- An image item carrying the C8 alt text. -/
def imgAltAB : ContentItem := .image "s.png" "images/s.png" altAB none none

/-- Witness for C8 at a concrete one-image content list. -/
theorem c8_image_alt_fallback_choices_witness :
    answerChoicesOf [imgAltAB] =
      [{ letter := 'A', text := "3", source := some "image_alt" },
       { letter := 'B', text := "4", source := some "image_alt" }] :=
  c8_image_alt_fallback_choices [imgAltAB] (by decide) (by decide)

/-- With the `Solution_2` anchor absent, the index loop started at 2
finds nothing and stops at once, whatever fuel remains. -/
theorem solLoop_two_of_missing :
    ∀ (resolve : String → Option String) (page : List Node) (maxSolutions fuel : Nat),
      findSpan page "Solution_2" = none →
      solLoop resolve page maxSolutions 2 fuel = [] := by
  intro resolve page maxSolutions fuel h
  cases fuel with
  | zero => rfl
  | succ f =>
    rw [solLoop, show ("Solution_" ++ toString 2 : String) = "Solution_2" from rfl, h]

/-- Claim C4: on a page without a `Solution_2` anchor (even when a
`Solution_3` anchor exists), the solution scan stops at index 2, so
every returned solution has index below 2 — the gap is not skipped. -/
theorem c4_gap_stops_solution_scan :
    ∀ (resolve : String → Option String) (page : List Node) (maxSolutions : Nat),
      findSpan page "Solution_2" = none →
      (findSpan page "Solution_3").isSome = true →
      ∀ s ∈ extract_solutions resolve page maxSolutions, s.number < 2 := by
  intro resolve page maxSolutions h2 _ s hs
  rw [extract_solutions] at hs
  cases maxSolutions with
  | zero => cases hs
  | succ f =>
    rw [solLoop, show ("Solution_" ++ toString 1 : String) = "Solution_1" from rfl] at hs
    cases hsp : findSpan page "Solution_1" with
    | none => rw [hsp] at hs; cases hs
    | some sp =>
      rw [hsp] at hs
      cases hh : findHeadingRest page 1 with
      | none => rw [hh] at hs; cases hs
      | some after =>
        rw [hh] at hs
        dsimp only at hs
        have htail : solLoop resolve page (f + 1) (1 + 1) f = [] :=
          solLoop_two_of_missing resolve page (f + 1) f h2
        by_cases hc : solContent resolve (f + 1) 1 after = []
        · rw [if_pos hc, htail] at hs; cases hs
        · rw [if_neg hc, htail] at hs
          rcases List.mem_singleton.1 hs with rfl
          exact Nat.one_lt_two

/-- A page carrying `Solution_1` and `Solution_3` anchors but no
`Solution_2`. -/
def c4Page : List Node :=
  [.elem "h2" {} [.elem "span" { id := some "Solution_1" } [.textNode "Solution 1"]],
   .elem "p" {} [.textNode "First."],
   .elem "h2" {} [.elem "span" { id := some "Solution_3" } [.textNode "Solution 3"]]]

/-- Witness for C4: the concrete first solution record returned for
`c4Page` has index below 2. -/
theorem c4_gap_stops_solution_scan_witness :
    (SolutionRecord.mk 1 [ContentItem.text "First.", ContentItem.text "Solution 3"]).number < 2 :=
  c4_gap_stops_solution_scan noResolve c4Page 3 (by rfl) (by rfl) _ (by decide)

/-- A per-letter alt extraction labels the choice with that letter and
the `image_alt` source. -/
theorem choiceForLetter_spec :
    ∀ (l : Char) (alt : List Char) (c : AnswerChoice),
      choiceForLetter l alt = some c → c.letter = l ∧ c.source = some "image_alt" := by
  intro l alt c h
  rw [choiceForLetter] at h
  cases hs : searchAlt l alt with
  | none => rw [hs] at h; cases h
  | some cap =>
    rw [hs] at h
    dsimp only at h
    split at h
    · cases h
    · injection h with h'
      subst h'
      exact ⟨rfl, rfl⟩

/-- Letters of the per-letter extraction come from the letter list. -/
theorem letter_mem_of_mem_filterMap :
    ∀ (alt : List Char) (ls : List Char) (x : Char),
      x ∈ (ls.filterMap fun l => choiceForLetter l alt).map AnswerChoice.letter → x ∈ ls := by
  intro alt ls x hx
  rw [List.mem_map] at hx
  obtain ⟨c, hc, rfl⟩ := hx
  rw [List.mem_filterMap] at hc
  obtain ⟨l, hl, hcl⟩ := hc
  rw [(choiceForLetter_spec l alt c hcl).1]
  exact hl

/-- Distinct letters tried in order produce pairwise distinct choice
letters. -/
theorem pairwise_letters_filterMap :
    ∀ (alt : List Char) (ls : List Char), ls.Pairwise (· ≠ ·) →
      ((ls.filterMap fun l => choiceForLetter l alt).map AnswerChoice.letter).Pairwise (· ≠ ·) := by
  intro alt ls
  induction ls with
  | nil => intro _; simp
  | cons l ls ih =>
    intro hp
    rw [List.pairwise_cons] at hp
    cases hc : choiceForLetter l alt with
    | none =>
      simp only [List.filterMap_cons, hc]
      exact ih hp.2
    | some c =>
      simp only [List.filterMap_cons, hc, List.map_cons, List.pairwise_cons]
      refine ⟨?_, ih hp.2⟩
      intro x hx
      rw [(choiceForLetter_spec l alt c hc).1]
      exact hp.1 x (letter_mem_of_mem_filterMap alt ls x hx)

/-- Claim C5, amended: the image-alt fallback produces pairwise
distinct letters (each of A-E is tried once); the textual cascade, by
contrast, copies every regex match and can repeat a letter. -/
theorem c5_amended_image_alt_letters_distinct :
    ∀ content : List ContentItem,
      ((imageAltFallback content).map AnswerChoice.letter).Pairwise (· ≠ ·) := by
  intro content
  induction content with
  | nil => simp [imageAltFallback]
  | cons item rest ih =>
    cases item with
    | image src lp alt w h =>
      rw [imageAltFallback]
      by_cases hc : alt ≠ "" ∧ altGate alt = true
      · rw [if_pos hc]
        by_cases hcs : choicesFromAlt alt.data = []
        · rw [if_pos hcs]; exact ih
        · rw [if_neg hcs]
          exact pairwise_letters_filterMap alt.data ['A', 'B', 'C', 'D', 'E'] (by decide)
      · rw [if_neg hc]; exact ih
    | text c => exact ih
    | lineBreak => exact ih
    | html c hs t => exact ih

/-- Choices built from the winning textual pattern carry no source. -/
theorem source_of_mem_choicesOfMatches :
    ∀ (ms : List (Char × List Char)) (c : AnswerChoice),
      c ∈ choicesOfMatches ms → c.source = none := by
  intro ms c h
  rw [choicesOfMatches, List.mem_filterMap] at h
  obtain ⟨m, _, hm⟩ := h
  dsimp only at hm
  split at hm
  · cases hm
  · injection hm with h'
    subst h'
    rfl

/-- Choices built from an alt text carry the `image_alt` source. -/
theorem source_of_mem_choicesFromAlt :
    ∀ (alt : List Char) (c : AnswerChoice),
      c ∈ choicesFromAlt alt → c.source = some "image_alt" := by
  intro alt c h
  rw [choicesFromAlt, List.mem_filterMap] at h
  obtain ⟨l, _, hl⟩ := h
  exact (choiceForLetter_spec l alt c hl).2

/-- Every choice of the fallback scan carries the `image_alt` source. -/
theorem source_of_mem_imageAltFallback :
    ∀ (content : List ContentItem) (c : AnswerChoice),
      c ∈ imageAltFallback content → c.source = some "image_alt" := by
  intro content
  induction content with
  | nil => intro c h; cases h
  | cons item rest ih =>
    intro c h
    cases item with
    | image src lp alt w ht =>
      rw [imageAltFallback] at h
      split at h
      · split at h
        · exact ih c h
        · exact source_of_mem_choicesFromAlt alt.data c h
      · exact ih c h
    | text s => exact ih c h
    | lineBreak => exact ih c h
    | html s hs t => exact ih c h

/-- Claim C6, amended: choices from the textual cascade carry no
source field (modelled as `none`); only choices from the image-alt
fallback carry a source, and it is always `"image_alt"`. -/
theorem c6_amended_source_fields :
    (∀ (s : String) (c : AnswerChoice), c ∈ (textualChoices s).2 → c.source = none) ∧
      (∀ (content : List ContentItem) (c : AnswerChoice),
          c ∈ imageAltFallback content → c.source = some "image_alt") := by
  constructor
  · intro s c h
    rw [textualChoices] at h
    dsimp only at h
    split at h
    · exact source_of_mem_choicesOfMatches _ c h
    · split at h
      · exact source_of_mem_choicesOfMatches _ c h
      · split at h
        · exact source_of_mem_choicesOfMatches _ c h
        · cases h
  · exact source_of_mem_imageAltFallback

/-- Witness for the amended C6: one concrete choice from each path. -/
theorem c6_amended_source_fields_witness :
    ({ letter := 'C', text := "7", source := none } : AnswerChoice).source = none ∧
      ({ letter := 'A', text := "3", source := some "image_alt" } : AnswerChoice).source =
        some "image_alt" :=
  ⟨c6_amended_source_fields.1 c6Text _ (by decide),
   c6_amended_source_fields.2 [imgAltAB] _ (by decide)⟩

end AMCScraper
